import Mathlib

/-!
Shallow embedding of the time-series analysis engine of the
deforestation-monitoring repository (`backend/utils/time_series.py`,
class `TimeSeriesAnalyzer`), together with theorems settling the frozen
claims about its specification.

Conventions of the embedding:
* Python floats are modelled as exact rationals (`ℚ`); the float
  operations used by the code (add, sub, mul, div, abs, max, comparisons)
  are the corresponding exact rational operations.
* Irrational square roots (`np.std`, `np.sqrt`) are modelled by an
  explicit parameter `sq : ℚ → ℚ` supplied to every definition that
  needs one; every theorem holds for all such functions.
* A Python value that can be `NaN` is modelled as `Option ℚ` with
  `none` for `NaN`.
* A method that returns an `{'error': ...}` dictionary is modelled with
  `Except String`.
* The statistical fits performed by external libraries
  (`ExponentialSmoothing`, `ARIMA`) are modelled as oracle parameters:
  the oracle returns `some predictions` for a successful fit-and-forecast
  and `none` when every fit raises; the documented library contract
  (a forecast of `periods` values) appears as an explicit hypothesis
  where a claim depends on it.
-/

namespace TimeSeriesAnalyzer

/-- Arithmetic mean of a list (`np.mean`); `0` on the empty list, which is
never reached by the guarded callers. -/
def qmean (l : List ℚ) : ℚ := l.sum / l.length

/-- Population variance (`np.var`, `ddof=0`). -/
def npVarQ (l : List ℚ) : ℚ :=
  ((l.map (fun v => (v - qmean l) ^ 2)).sum) / l.length

/-- Sample variance (`pandas` default `ddof=1`); meaningful only for
lists of length ≥ 2, matching its guarded use. -/
def sampleVar (l : List ℚ) : ℚ :=
  ((l.map (fun v => (v - qmean l) ^ 2)).sum) / (l.length - 1)

/-- `np.cumsum`: partial sums, same length as the input. -/
def cumsum (l : List ℚ) : List ℚ :=
  (List.range l.length).map (fun i => ((l.take (i + 1)).sum))

/-- `pandas.Series.diff().dropna()`: consecutive differences, length
`n - 1`. -/
def diffList (l : List ℚ) : List ℚ :=
  (List.range (l.length - 1)).map (fun i => l.getD (i + 1) 0 - l.getD i 0)

/-- Sum of `x[a], x[a+1], ..., x[a+len-1]` (out-of-range entries read as
`0`; callers stay in range). -/
def sumWindow (x : List ℚ) (a len : ℕ) : ℚ :=
  ((List.range len).map (fun t => x.getD (a + t) 0)).sum

/-- Sum `∑ i, i * y i` over the index range of the list. -/
def sumIY (l : List ℚ) : ℚ :=
  ∑ i ∈ Finset.range l.length, (i : ℚ) * l.getD i 0

/-- Sum of the list written as an indexed sum (equal to `l.sum`). -/
def sumY (l : List ℚ) : ℚ :=
  ∑ i ∈ Finset.range l.length, l.getD i 0

/-- Sum of the indices `0 + 1 + ⋯ + (n-1)` as a rational. -/
def sumI (n : ℕ) : ℚ := ∑ i ∈ Finset.range n, (i : ℚ)

/-- Sum of squared indices as a rational. -/
def sumII (n : ℕ) : ℚ := ∑ i ∈ Finset.range n, (i : ℚ) ^ 2

/-- Slope of the degree-1 least-squares fit of `y` against `x = 0..n-1`
(`np.polyfit(x, y, 1)`), in closed form. -/
def olsSlope (l : List ℚ) : ℚ :=
  ((l.length : ℚ) * sumIY l - sumI l.length * sumY l) /
    ((l.length : ℚ) * sumII l.length - sumI l.length ^ 2)

/-- Intercept of the degree-1 least-squares fit
(`np.polyfit(x, y, 1)`). -/
def olsIntercept (l : List ℚ) : ℚ :=
  (sumY l - olsSlope l * sumI l.length) / (l.length : ℚ)

/-- Result dictionary of `TimeSeriesAnalyzer.analyze_trend`. -/
structure TrendResult where
  slope : ℚ
  intercept : ℚ
  r_squared : ℚ
  direction : String
  percentage_change : ℚ
  start_value : ℚ
  end_value : ℚ
  data_points : ℕ
  deriving Repr, DecidableEq

/-- `TimeSeriesAnalyzer.analyze_trend`.  On fewer than two points it
returns the insufficient-data error dictionary.  When `data[0] = 0` the
percentage-change line raises `ZeroDivisionError`, which the blanket
`except` converts into an error dictionary. -/
def analyze_trend (data : List ℚ) : Except String TrendResult :=
  if data.length < 2 then .error "Insufficient data for trend analysis"
  else
    let slope := olsSlope data
    let intercept := olsIntercept data
    let ss_tot := ∑ i ∈ Finset.range data.length,
      (data.getD i 0 - qmean data) ^ 2
    let ss_res := ∑ i ∈ Finset.range data.length,
      (data.getD i 0 - (slope * i + intercept)) ^ 2
    let r_squared := if 0 < ss_tot then 1 - ss_res / ss_tot else 0
    let direction :=
      if |slope| < 1 / 100 then "stable"
      else if 0 < slope then "increasing"
      else "decreasing"
    if data.getD 0 0 = 0 then .error "division by zero"
    else
      .ok
        { slope := slope
          intercept := intercept
          r_squared := r_squared
          direction := direction
          percentage_change :=
            (data.getLastD 0 - data.getD 0 0) / data.getD 0 0 * 100
          start_value := data.getD 0 0
          end_value := data.getLastD 0
          data_points := data.length }

/-- `TimeSeriesAnalyzer._predict_linear`: extrapolates the degree-1
least-squares fit to the next `periods` indices, clamping each value to
be non-negative. -/
def predict_linear (ts : List ℚ) (periods : ℕ) : List ℚ :=
  if ts.length < 2 then List.replicate periods 0
  else
    (List.range periods).map
      (fun (i : ℕ) =>
        max 0 (olsSlope ts * ((ts.length : ℚ) + (i : ℚ)) + olsIntercept ts))

/-- `TimeSeriesAnalyzer._predict_ets`: the library grid search and fit
are the oracle `ets`; `none` means every fit (including the simple
fallback model) raised, triggering the linear fallback, `some l` is the
chosen model's forecast, which the code clamps to be non-negative. -/
def predict_ets (ets : List ℚ → ℕ → Option (List ℚ)) (ts : List ℚ)
    (periods : ℕ) : List ℚ :=
  match ets ts periods with
  | some preds => preds.map (fun p => max 0 p)
  | none => predict_linear ts periods

/-- `TimeSeriesAnalyzer._predict_arima`: same shape as `predict_ets`
with the ARIMA order grid search as the oracle. -/
def predict_arima (arima : List ℚ → ℕ → Option (List ℚ)) (ts : List ℚ)
    (periods : ℕ) : List ℚ :=
  match arima ts periods with
  | some preds => preds.map (fun p => max 0 p)
  | none => predict_linear ts periods

/-- `TimeSeriesAnalyzer.predict`: dispatch on the method string, with
fewer than three points short-circuiting to a zero forecast and unknown
methods falling through to ETS. -/
def predict (ets arima : List ℚ → ℕ → Option (List ℚ)) (data : List ℚ)
    (periods : ℕ) (method : String) : List ℚ :=
  if data.length < 3 then List.replicate periods 0
  else if method = "ets" then predict_ets ets data periods
  else if method = "arima" then predict_arima arima data periods
  else if method = "linear" then predict_linear data periods
  else predict_ets ets data periods

/-- Result dictionary of `forecast_with_intervals`; the short-series
early return carries no `confidence_level` key, hence the `Option`. -/
structure ForecastIntervals where
  forecast : List ℚ
  lower_bound : List ℚ
  upper_bound : List ℚ
  confidence_level : Option ℚ
  deriving Repr, DecidableEq

/-- `TimeSeriesAnalyzer.forecast_with_intervals`: point forecast from
`predict`, standard error from the standard deviation of first
differences scaled by `√(step)`, interval at the fixed `z = 1.96`;
`sq` models `np.std`/`np.sqrt`. -/
def forecast_with_intervals (sq : ℚ → ℚ)
    (ets arima : List ℚ → ℕ → Option (List ℚ)) (data : List ℚ)
    (periods : ℕ) (alpha : ℚ) (method : String) : ForecastIntervals :=
  if data.length < 3 then
    { forecast := List.replicate periods 0
      lower_bound := List.replicate periods 0
      upper_bound := List.replicate periods 0
      confidence_level := none }
  else
    let fc := predict ets arima data periods method
    let residuals := diffList data
    if 0 < residuals.length then
      let residual_std := sq (npVarQ residuals)
      let se := (List.range periods).map
        (fun (i : ℕ) => residual_std * sq ((i : ℚ) + 1))
      { forecast := fc
        lower_bound := List.zipWith (fun f s => max 0 (f - 196 / 100 * s)) fc se
        upper_bound := List.zipWith (fun f s => f + 196 / 100 * s) fc se
        confidence_level := some ((1 - alpha) * 100) }
    else
      { forecast := fc
        lower_bound := fc.map (fun f => max 0 (f * (8 / 10)))
        upper_bound := fc.map (fun f => f * (12 / 10))
        confidence_level := some ((1 - alpha) * 100) }

/-- One entry of the `anomalies` list of `detect_anomalies`; the source
key `type` is spelled `atype`. -/
structure Anomaly where
  index : ℕ
  value : ℚ
  z_score : ℚ
  atype : String
  deriving Repr, DecidableEq

/-- Result dictionary of `detect_anomalies`. -/
structure AnomalyResult where
  anomalies : List Anomaly
  anomaly_indices : List ℕ
  anomaly_rate : ℚ
  threshold : ℚ
  z_scores : List ℚ
  deriving Repr, DecidableEq

/-- Rolling window size of `detect_anomalies`:
`min(12, len(ts) // 3)`. -/
def rollingWindowSize (n : ℕ) : ℕ := min 12 (n / 3)

/-- The trailing window `data[i-w+1 .. i]` used by the pandas rolling
statistics. -/
def rollingWindow (data : List ℚ) (w i : ℕ) : List ℚ :=
  (data.drop (i + 1 - w)).take w

/-- The rolling z-score of position `i`:
`(ts - rolling_mean) / rolling_std`, which is `NaN` (`none`) while the
window is not yet full, when the window holds a single point (sample
std of one observation), or when the window is constant (`0/0`). -/
def zScoreAt (sq : ℚ → ℚ) (data : List ℚ) (i : ℕ) : Option ℚ :=
  let w := rollingWindowSize data.length
  if i + 1 < w then none
  else if w < 2 then none
  else
    let win := rollingWindow data w i
    if sampleVar win = 0 then none
    else some ((data.getD i 0 - qmean win) / sq (sampleVar win))

/-- `TimeSeriesAnalyzer.detect_anomalies`: flags positions with a
defined z-score of magnitude above the threshold; `NaN` z-scores are
written as `0` in the full-length `z_scores` list. -/
def detect_anomalies (sq : ℚ → ℚ) (data : List ℚ) (threshold : ℚ) :
    Except String AnomalyResult :=
  if data.length < 3 then .error "Insufficient data for anomaly detection"
  else
    let anoms := (List.range data.length).filterMap (fun i =>
      match zScoreAt sq data i with
      | some z =>
        if threshold < |z| then
          some ⟨i, data.getD i 0, z, if 0 < z then "high" else "low"⟩
        else none
      | none => none)
    .ok
      { anomalies := anoms
        anomaly_indices := anoms.map (fun a => a.index)
        anomaly_rate := (anoms.length : ℚ) / (data.length : ℚ)
        threshold := threshold
        z_scores := (List.range data.length).map
          (fun i => (zScoreAt sq data i).getD 0) }

/-- One raw or representative change point of `detect_change_points`. -/
structure ChangePoint where
  index : ℕ
  value : ℚ
  cumulative_sum : ℚ
  deriving Repr, DecidableEq

/-- Result dictionary of `detect_change_points`. -/
structure ChangePointResult where
  change_points : List ChangePoint
  cumulative_sum : List ℚ
  threshold : ℚ
  deriving Repr, DecidableEq

/-- Python's `max(group, key=lambda x: abs(x['cumulative_sum']))` on the
non-empty group `c :: tl`: the first element whose absolute cumulative
sum is maximal. -/
def maxAbsFrom (c : ChangePoint) (tl : List ChangePoint) : ChangePoint :=
  tl.foldl
    (fun best x =>
      if |best.cumulative_sum| < |x.cumulative_sum| then x else best) c

/-- The grouping loop of `detect_change_points`: `c :: tl` is the
current group (in insertion order) and the third argument the remaining
raw candidates.  A candidate within 5 index positions of the group's
last element joins the group; otherwise the group is closed with its
maximal-|cusum| representative. -/
def groupGo (c : ChangePoint) (tl : List ChangePoint) :
    List ChangePoint → List ChangePoint
  | [] => [maxAbsFrom c tl]
  | cp :: rest =>
    if cp.index - (tl.getLastD c).index < 5 then groupGo c (tl ++ [cp]) rest
    else maxAbsFrom c tl :: groupGo cp [] rest

/-- Grouping of raw candidate change points
(lines 482–499 of `time_series.py`). -/
def groupChangePoints : List ChangePoint → List ChangePoint
  | [] => []
  | c :: rest => groupGo c [] rest

/-- The raw candidate list of `detect_change_points`: positions
`i ≥ 1` whose absolute cumulative deviation exceeds
`threshold * np.std(deviation)` (the square root supplied by `sq`). -/
def rawCandidates (sq : ℚ → ℚ) (data : List ℚ) (threshold : ℚ) :
    List ChangePoint :=
  let m := qmean data
  let dev := data.map (fun v => v - m)
  let cs := cumsum dev
  let sd := sq (npVarQ dev)
  ((List.range data.length).drop 1).filterMap (fun i =>
    if threshold * sd < |cs.getD i 0| then
      some ⟨i, data.getD i 0, cs.getD i 0⟩
    else none)

/-- `TimeSeriesAnalyzer.detect_change_points`. -/
def detect_change_points (sq : ℚ → ℚ) (data : List ℚ) (threshold : ℚ) :
    Except String ChangePointResult :=
  if data.length < 5 then
    .error "Insufficient data for change point detection"
  else
    .ok
      { change_points := groupChangePoints (rawCandidates sq data threshold)
        cumulative_sum := cumsum (data.map (fun v => v - qmean data))
        threshold := threshold }

/-- Clusters described by the claim for `detect_change_points`:
maximal runs of raw candidates in which each candidate lies within 5
index positions of its predecessor.  Written by recursion from the
right: an element is prepended to the first cluster when it chains to
that cluster's head, and opens a new cluster otherwise. -/
def chainClusters : List ChangePoint → List (List ChangePoint)
  | [] => []
  | c :: rest =>
    match chainClusters rest with
    | [] => [[c]]
    | g :: gs =>
      match g with
      | [] => [c] :: gs
      | d :: _ => if d.index - c.index < 5 then (c :: g) :: gs
                  else [c] :: g :: gs

/-- The single representative a non-empty cluster contributes: its
first candidate of maximal absolute cumulative sum. -/
def pickRep : List ChangePoint → List ChangePoint
  | [] => []
  | c :: tl => [maxAbsFrom c tl]

/-- The claim's description of the grouped output: one representative
per chained cluster, in cluster order. -/
def clusterReps (l : List ChangePoint) : List ChangePoint :=
  (chainClusters l).flatMap pickRep

/-- Centered moving-average trend of `statsmodels.seasonal_decompose`:
for even `p` the filter `[1/2, 1, …, 1, 1/2] / p` of width `p + 1`, for
odd `p` the plain window of width `p`; `none` at the boundary indices
where the window does not fit (the `NaN` edges). -/
def maTrendAt (p : ℕ) (x : List ℚ) (i : ℕ) : Option ℚ :=
  if p % 2 = 0 then
    let h := p / 2
    if h ≤ i ∧ i + h < x.length then
      some (((x.getD (i - h) 0 + x.getD (i + h) 0) / 2 +
        sumWindow x (i - h + 1) (p - 1)) / p)
    else none
  else
    let h := (p - 1) / 2
    if h ≤ i ∧ i + h < x.length then some (sumWindow x (i - h) p / p)
    else none

/-- Detrended series `x - trend` (additive model), `NaN` at the
edges. -/
def detrendAt (p : ℕ) (x : List ℚ) (i : ℕ) : Option ℚ :=
  (maTrendAt p x i).map (fun t => x.getD i 0 - t)

/-- `pd_nanmean(detrended[j::p])`: mean of the defined detrended values
in residue class `j`. -/
def periodAverage (p : ℕ) (x : List ℚ) (j : ℕ) : ℚ :=
  let vals := (List.range x.length).filterMap (fun i =>
    if i % p = j then detrendAt p x i else none)
  vals.sum / vals.length

/-- The full-length seasonal component: the centered period averages
tiled over the series. -/
def seasonalComponents (p : ℕ) (x : List ℚ) : List ℚ :=
  let pas := (List.range p).map (periodAverage p x)
  let m := pas.sum / (p : ℚ)
  (List.range x.length).map (fun i => pas.getD (i % p) 0 - m)

/-- The residual component with the edge `NaN`s dropped
(`decomposition.resid.dropna()`). -/
def residDropna (p : ℕ) (x : List ℚ) : List ℚ :=
  let s := seasonalComponents p x
  (List.range x.length).filterMap (fun i =>
    (detrendAt p x i).map (fun d => d - s.getD i 0))

/-- The trend component with the edge `NaN`s dropped
(`decomposition.trend.dropna()`). -/
def trendDropna (p : ℕ) (x : List ℚ) : List ℚ :=
  (List.range x.length).filterMap (maTrendAt p x)

/-- One iteration of the candidate-period loop of `detect_seasonality`
(lines 98–117): the score `residual_var / seasonal_var` is produced
only when the candidate is feasible (`len(ts) >= 2 * p`), the residual
list is non-empty, the residual variance is positive, and the seasonal
variance is non-zero (a zero seasonal variance gives the float score
`inf`, which never beats the running best). -/
def seasonalityScore (x : List ℚ) (p : ℕ) : Option ℚ :=
  if 2 * p ≤ x.length then
    let resid := residDropna p x
    if resid.length ≠ 0 then
      let sv := npVarQ (seasonalComponents p x)
      let rv := npVarQ resid
      if 0 < rv ∧ sv ≠ 0 then some (rv / sv) else none
    else none
  else none

/-- The auto-detection of `detect_seasonality` when `period` is `None`
(lines 92–119): try the candidates `[12, 4]` in order, keep the
candidate with the strictly lowest score, defaulting to 12. -/
def detect_seasonality_auto_period (x : List ℚ) : ℕ :=
  (([12, 4].foldl
    (fun best p =>
      match seasonalityScore x p, best.2 with
      | some s, none => (p, some s)
      | some s, some b => if s < b then (p, some s) else best
      | none, _ => best)
    ((12 : ℕ), (none : Option ℚ)))).1

/-- Result dictionary of `decompose_time_series` (additive model, the
default used by every caller relevant to the claims). -/
structure DecompositionResult where
  trend : List ℚ
  seasonal : List ℚ
  residual : List ℚ
  period : ℕ
  deriving Repr, DecidableEq

/-- `TimeSeriesAnalyzer.decompose_time_series` with the default
additive model: fewer than 24 points is the insufficient-data error;
an unspecified period becomes 12 with no candidate search; a series
shorter than two full cycles makes `seasonal_decompose` raise, which
the blanket `except` converts into an error dictionary. -/
def decompose_time_series (data : List ℚ) (period : Option ℕ) :
    Except String DecompositionResult :=
  if data.length < 24 then
    .error "Insufficient data for time series decomposition"
  else
    let p := period.getD 12
    if data.length < 2 * p then
      .error "x must have 2 complete cycles"
    else
      .ok
        { trend := trendDropna p data
          seasonal := seasonalComponents p data
          residual := residDropna p data
          period := p }

/-! ### Claims C2 and C3: `analyze_trend` percentage change and short input -/

/-- **C2, counterexample.**  The claim states that `analyze_trend`
returns `percentage_change = 0` when the first value is `0`; on the
series `[0, 1]` the percentage-change line divides by `data[0] = 0`,
the `ZeroDivisionError` is caught by the blanket `except`, and the call
returns an error dictionary instead of any trend result. -/
theorem analyze_trend_zero_first_counterexample :
    analyze_trend [0, 1] = Except.error "division by zero" := rfl

/-- **C2 (amended).**  For every series of length ≥ 2 whose first value
is non-zero, `analyze_trend` succeeds and returns
`percentage_change = ((last - first) / first) * 100`; when the first
value is `0` the call returns an error dictionary instead (see the
counterexample). -/
theorem analyze_trend_percentage_change (data : List ℚ)
    (hlen : 2 ≤ data.length) (h0 : data.getD 0 0 ≠ 0) :
    ∃ r, analyze_trend data = Except.ok r ∧
      r.percentage_change =
        (data.getLastD 0 - data.getD 0 0) / data.getD 0 0 * 100 := by
  unfold analyze_trend
  rw [if_neg (by omega), if_neg h0]
  exact ⟨_, rfl, rfl⟩

/-- **C2, witness** at the series `[1, 3]`. -/
theorem analyze_trend_percentage_change_witness :
    2 ≤ ([1, 3] : List ℚ).length ∧ ([1, 3] : List ℚ).getD 0 0 ≠ 0 ∧
      ∃ r, analyze_trend [1, 3] = Except.ok r ∧
        r.percentage_change =
          (([1, 3] : List ℚ).getLastD 0 - ([1, 3] : List ℚ).getD 0 0) /
            ([1, 3] : List ℚ).getD 0 0 * 100 :=
  ⟨by decide, by decide,
    analyze_trend_percentage_change [1, 3] (by decide) (by decide)⟩

/-- **C3, counterexample.**  The claim states that on input of length
< 2 `analyze_trend` returns a zero/neutral `TrendResult` with slope,
intercept and percentage change all zero; the code instead returns the
insufficient-data error dictionary, which carries no such fields. -/
theorem analyze_trend_short_counterexample :
    analyze_trend [5] = Except.error "Insufficient data for trend analysis" := rfl

/-- **C3 (amended).**  For every input of length < 2, `analyze_trend`
returns the structured insufficient-data error result (no exception
escapes); it does not return a zero/neutral `TrendResult`. -/
theorem analyze_trend_short_input (data : List ℚ)
    (h : data.length < 2) :
    analyze_trend data = Except.error "Insufficient data for trend analysis" := by
  unfold analyze_trend
  rw [if_pos h]

/-- **C3, witness** at the empty series. -/
theorem analyze_trend_short_input_witness :
    ([] : List ℚ).length < 2 ∧
      analyze_trend [] = Except.error "Insufficient data for trend analysis" :=
  ⟨by decide, analyze_trend_short_input [] (by decide)⟩

/-! ### Claim C10: unknown forecast methods fall back to ETS -/

/-- **C10.**  For every series, horizon and oracle pair, calling
`predict` with a method string other than `"ets"`, `"arima"` or
`"linear"` returns exactly the result of calling it with
`method = "ets"`: the final `else` of the dispatch calls
`_predict_ets`. -/
theorem predict_unknown_method_eq_ets
    (ets arima : List ℚ → ℕ → Option (List ℚ)) (data : List ℚ)
    (periods : ℕ) (method : String)
    (h : method ∉ (["ets", "arima", "linear"] : List String)) :
    predict ets arima data periods method =
      predict ets arima data periods "ets" := by
  have h1 : method ≠ "ets" := fun e => h (by rw [e]; exact List.mem_cons_self _ _)
  have h2 : method ≠ "arima" := fun e => h (by rw [e]; right; exact List.mem_cons_self _ _)
  have h3 : method ≠ "linear" := fun e => h (by rw [e]; right; right; exact List.mem_cons_self _ _)
  simp [predict, h1, h2, h3]

/-- **C10, witness** at the method string `"foo"`. -/
theorem predict_unknown_method_eq_ets_witness :
    ("foo" : String) ∉ (["ets", "arima", "linear"] : List String) ∧
      predict (fun _ _ => none) (fun _ _ => none) [1, 2, 3] 2 "foo" =
        predict (fun _ _ => none) (fun _ _ => none) [1, 2, 3] 2 "ets" :=
  ⟨by decide,
    predict_unknown_method_eq_ets (fun _ _ => none) (fun _ _ => none)
      [1, 2, 3] 2 "foo" (by decide)⟩

/-! ### Claim C9: `alpha` only affects the reported confidence level -/

/-- **C9.**  For every series, horizon, method and any two significance
levels, `forecast_with_intervals` returns identical forecast, lower and
upper bounds for both: the interval width always uses the fixed
`z = 1.96` and `alpha` enters only the reported `confidence_level`,
which equals `(1 - alpha) * 100` whenever the series is long enough for
that key to be emitted. -/
theorem forecast_with_intervals_alpha_independent (sq : ℚ → ℚ)
    (ets arima : List ℚ → ℕ → Option (List ℚ)) (data : List ℚ)
    (periods : ℕ) (method : String) (alpha₁ alpha₂ : ℚ) :
    (forecast_with_intervals sq ets arima data periods alpha₁ method).forecast =
      (forecast_with_intervals sq ets arima data periods alpha₂ method).forecast ∧
    (forecast_with_intervals sq ets arima data periods alpha₁ method).lower_bound =
      (forecast_with_intervals sq ets arima data periods alpha₂ method).lower_bound ∧
    (forecast_with_intervals sq ets arima data periods alpha₁ method).upper_bound =
      (forecast_with_intervals sq ets arima data periods alpha₂ method).upper_bound ∧
    (3 ≤ data.length →
      (forecast_with_intervals sq ets arima data periods alpha₁ method).confidence_level =
        some ((1 - alpha₁) * 100)) := by
  unfold forecast_with_intervals
  by_cases h : data.length < 3
  · simp [h]
  · refine ⟨?_, ?_, ?_, ?_⟩ <;> simp only [if_neg h] <;> split <;> simp [h]

/-- **C9, witness** at the series `[1, 2, 3]` with
`alpha₁ = 1/20`, `alpha₂ = 1/10`. -/
theorem forecast_with_intervals_alpha_independent_witness :
    (forecast_with_intervals (fun q => q) (fun _ _ => none) (fun _ _ => none)
        [1, 2, 3] 2 (1 / 20) "linear").forecast =
      (forecast_with_intervals (fun q => q) (fun _ _ => none) (fun _ _ => none)
        [1, 2, 3] 2 (1 / 10) "linear").forecast ∧
    (forecast_with_intervals (fun q => q) (fun _ _ => none) (fun _ _ => none)
        [1, 2, 3] 2 (1 / 20) "linear").lower_bound =
      (forecast_with_intervals (fun q => q) (fun _ _ => none) (fun _ _ => none)
        [1, 2, 3] 2 (1 / 10) "linear").lower_bound ∧
    (forecast_with_intervals (fun q => q) (fun _ _ => none) (fun _ _ => none)
        [1, 2, 3] 2 (1 / 20) "linear").upper_bound =
      (forecast_with_intervals (fun q => q) (fun _ _ => none) (fun _ _ => none)
        [1, 2, 3] 2 (1 / 10) "linear").upper_bound ∧
    (3 ≤ ([1, 2, 3] : List ℚ).length →
      (forecast_with_intervals (fun q => q) (fun _ _ => none) (fun _ _ => none)
          [1, 2, 3] 2 (1 / 20) "linear").confidence_level =
        some ((1 - 1 / 20) * 100)) :=
  forecast_with_intervals_alpha_independent (fun q => q) (fun _ _ => none)
    (fun _ _ => none) [1, 2, 3] 2 "linear" (1 / 20) (1 / 10)

/-! ### Claim C4: forecast length invariant -/

/-- The linear strategy always returns exactly `periods` values. -/
lemma predict_linear_length (ts : List ℚ) (periods : ℕ) :
    (predict_linear ts periods).length = periods := by
  unfold predict_linear
  split
  · exact List.length_replicate _ _
  · rw [List.length_map, List.length_range]

/-- The ETS strategy returns exactly `periods` values provided the
library forecast honours its documented length contract. -/
lemma predict_ets_length (ets : List ℚ → ℕ → Option (List ℚ))
    (hets : ∀ ts k l, ets ts k = some l → l.length = k)
    (ts : List ℚ) (periods : ℕ) :
    (predict_ets ets ts periods).length = periods := by
  unfold predict_ets
  cases h : ets ts periods with
  | some preds => rw [List.length_map]; exact hets ts periods preds h
  | none => exact predict_linear_length ts periods

/-- The ARIMA strategy returns exactly `periods` values under the same
library contract. -/
lemma predict_arima_length (arima : List ℚ → ℕ → Option (List ℚ))
    (harima : ∀ ts k l, arima ts k = some l → l.length = k)
    (ts : List ℚ) (periods : ℕ) :
    (predict_arima arima ts periods).length = periods := by
  unfold predict_arima
  cases h : arima ts periods with
  | some preds => rw [List.length_map]; exact harima ts periods preds h
  | none => exact predict_linear_length ts periods

/-- **C4.**  For every series, every `periods > 0` and every supported
method, `predict` returns a list of length exactly `periods`, assuming
the fitted library models honour their documented contract of
forecasting exactly `periods` values (the `ets`/`arima` oracles). -/
theorem predict_length (ets arima : List ℚ → ℕ → Option (List ℚ))
    (hets : ∀ ts k l, ets ts k = some l → l.length = k)
    (harima : ∀ ts k l, arima ts k = some l → l.length = k)
    (data : List ℚ) (periods : ℕ) (method : String)
    (hper : 0 < periods)
    (hm : method ∈ (["ets", "arima", "linear"] : List String)) :
    (predict ets arima data periods method).length = periods := by
  unfold predict
  split
  · exact List.length_replicate _ _
  · split
    · exact predict_ets_length ets hets data periods
    · split
      · exact predict_arima_length arima harima data periods
      · split
        · exact predict_linear_length data periods
        · exact predict_ets_length ets hets data periods

/-- **C4, witness** with length-honouring oracles, a 3-point series and
a 5-step horizon under each supported method. -/
theorem predict_length_witness :
    (∀ ts k l, (fun (_ : List ℚ) (k : ℕ) => some (List.replicate k (1 : ℚ))) ts k = some l → l.length = k) ∧
    (0 : ℕ) < 5 ∧ ("arima" : String) ∈ (["ets", "arima", "linear"] : List String) ∧
    (predict (fun _ k => some (List.replicate k (1 : ℚ)))
        (fun _ k => some (List.replicate k (1 : ℚ))) [1, 2, 3] 5 "arima").length = 5 :=
  have hc : ∀ ts k l,
      (fun (_ : List ℚ) (k : ℕ) => some (List.replicate k (1 : ℚ))) ts k = some l →
        l.length = k := by
    intro ts k l h
    obtain rfl : List.replicate k (1 : ℚ) = l := Option.some.inj h
    exact List.length_replicate _ _
  ⟨hc, by decide, by decide,
    predict_length (fun _ k => some (List.replicate k (1 : ℚ)))
      (fun _ k => some (List.replicate k (1 : ℚ))) hc hc [1, 2, 3] 5 "arima"
      (by decide) (by decide)⟩

/-! ### Claim C5: forecast non-negativity -/

/-- Every value produced by the linear strategy is non-negative (the
code clamps with `max(0, ·)` and the short-input branch returns
zeros). -/
lemma predict_linear_nonneg (ts : List ℚ) (periods : ℕ) :
    ∀ v ∈ predict_linear ts periods, 0 ≤ v := by
  intro v hv
  unfold predict_linear at hv
  split at hv
  · rw [List.eq_of_mem_replicate hv]
  · obtain ⟨i, _, rfl⟩ := List.mem_map.mp hv
    exact le_max_left _ _

/-- Every value produced by `predict` is non-negative, for any oracles
and any method. -/
lemma predict_nonneg (ets arima : List ℚ → ℕ → Option (List ℚ))
    (data : List ℚ) (periods : ℕ) (method : String) :
    ∀ v ∈ predict ets arima data periods method, 0 ≤ v := by
  have hets : ∀ v ∈ predict_ets ets data periods, 0 ≤ v := by
    intro v hv
    unfold predict_ets at hv
    split at hv
    · obtain ⟨p, _, rfl⟩ := List.mem_map.mp hv
      exact le_max_left _ _
    · exact predict_linear_nonneg data periods v hv
  have harima : ∀ v ∈ predict_arima arima data periods, 0 ≤ v := by
    intro v hv
    unfold predict_arima at hv
    split at hv
    · obtain ⟨p, _, rfl⟩ := List.mem_map.mp hv
      exact le_max_left _ _
    · exact predict_linear_nonneg data periods v hv
  intro v hv
  unfold predict at hv
  split at hv
  · rw [List.eq_of_mem_replicate hv]
  · split at hv
    · exact hets v hv
    · split at hv
      · exact harima v hv
      · split at hv
        · exact predict_linear_nonneg data periods v hv
        · exact hets v hv

/-- Members of a `zipWith` satisfy any property enjoyed by every image
of the combining function. -/
lemma forall_mem_zipWith {α β γ : Type} {f : α → β → γ} {P : γ → Prop}
    (h : ∀ a b, P (f a b)) :
    ∀ (l₁ : List α) (l₂ : List β), ∀ v ∈ List.zipWith f l₁ l₂, P v := by
  intro l₁
  induction l₁ with
  | nil => intro l₂ v hv; simp at hv
  | cons a t ih =>
    intro l₂ v hv
    cases l₂ with
    | nil => simp at hv
    | cons b t₂ =>
      rcases List.mem_cons.mp hv with rfl | hv
      · exact h a b
      · exact ih t₂ v hv

/-- **C5.**  For every series of non-negative values, every horizon
`periods > 0`, every method and every square-root model, `predict`
returns only non-negative values and every element of the
`lower_bound` list of `forecast_with_intervals` is non-negative. -/
theorem forecast_nonneg (sq : ℚ → ℚ)
    (ets arima : List ℚ → ℕ → Option (List ℚ)) (data : List ℚ)
    (periods : ℕ) (alpha : ℚ) (method : String)
    (hdata : ∀ x ∈ data, 0 ≤ x) (hper : 0 < periods) :
    (∀ v ∈ predict ets arima data periods method, 0 ≤ v) ∧
    (∀ v ∈ (forecast_with_intervals sq ets arima data periods alpha
        method).lower_bound, 0 ≤ v) := by
  refine ⟨predict_nonneg ets arima data periods method, ?_⟩
  simp only [forecast_with_intervals]
  split
  · intro v hv
    rw [List.eq_of_mem_replicate hv]
  · split
    · intro v hv
      exact forall_mem_zipWith (fun a b => le_max_left 0 (a - 196 / 100 * b))
        _ _ v hv
    · intro v hv
      obtain ⟨p, _, rfl⟩ := List.mem_map.mp hv
      exact le_max_left _ _

/-- **C5, witness** at the non-negative series `[1, 2, 3]`. -/
theorem forecast_nonneg_witness :
    (∀ x ∈ ([1, 2, 3] : List ℚ), 0 ≤ x) ∧ (0 : ℕ) < 2 ∧
    (∀ v ∈ predict (fun _ _ => none) (fun _ _ => none) [1, 2, 3] 2 "ets", 0 ≤ v) ∧
    (∀ v ∈ (forecast_with_intervals (fun q => q) (fun _ _ => none)
        (fun _ _ => none) [1, 2, 3] 2 (1 / 20) "ets").lower_bound, 0 ≤ v) :=
  have h := forecast_nonneg (fun q => q) (fun _ _ => none) (fun _ _ => none)
    [1, 2, 3] 2 (1 / 20) "ets" (by decide) (by decide)
  ⟨by decide, by decide, h.1, h.2⟩

/-! ### Claim C7: anomaly NaN handling and anomaly rate -/

/-- **C7.**  For every series of length ≥ 3, every threshold and every
square-root model, `detect_anomalies` succeeds and: the `z_scores`
output has full length; every position whose rolling z-score is
undefined (`NaN`) is reported there as `0`; every reported anomaly sits
at a position with a defined z-score; and `anomaly_rate` equals the
number of flagged positions divided by the series length. -/
theorem detect_anomalies_nan_handling (sq : ℚ → ℚ) (data : List ℚ)
    (threshold : ℚ) (h : 3 ≤ data.length) :
    ∃ r, detect_anomalies sq data threshold = Except.ok r ∧
      r.z_scores.length = data.length ∧
      (∀ i < data.length, zScoreAt sq data i = none → r.z_scores.getD i 1 = 0) ∧
      (∀ a ∈ r.anomalies, zScoreAt sq data a.index ≠ none) ∧
      r.anomaly_rate = (r.anomalies.length : ℚ) / (data.length : ℚ) := by
  unfold detect_anomalies
  rw [if_neg (by omega)]
  refine ⟨_, rfl, ?_, ?_, ?_, rfl⟩
  · rw [List.length_map, List.length_range]
  · intro i hi hz
    rw [List.getD_eq_getElem?_getD, List.getElem?_map,
      List.getElem?_range hi]
    simp [hz]
  · intro a ha hnone
    obtain ⟨i, _, hfa⟩ := List.mem_filterMap.mp ha
    cases hz : zScoreAt sq data i with
    | none => rw [hz] at hfa; exact Option.noConfusion hfa
    | some z =>
      rw [hz] at hfa
      dsimp only at hfa
      by_cases hthr : threshold < |z|
      · rw [if_pos hthr] at hfa
        have hidx : a.index = i := by rw [← Option.some.inj hfa]
        rw [hidx, hz] at hnone
        exact Option.noConfusion hnone
      · rw [if_neg hthr] at hfa
        exact Option.noConfusion hfa

/-- **C7, witness** at a 6-point series with a defined-z spike. -/
theorem detect_anomalies_nan_handling_witness :
    3 ≤ ([1, 2, 3, 4, 5, 100] : List ℚ).length ∧
      ∃ r, detect_anomalies (fun q => q) [1, 2, 3, 4, 5, 100] 2 = Except.ok r ∧
        r.z_scores.length = ([1, 2, 3, 4, 5, 100] : List ℚ).length ∧
        (∀ i < ([1, 2, 3, 4, 5, 100] : List ℚ).length,
          zScoreAt (fun q => q) [1, 2, 3, 4, 5, 100] i = none →
            r.z_scores.getD i 1 = 0) ∧
        (∀ a ∈ r.anomalies,
          zScoreAt (fun q => q) [1, 2, 3, 4, 5, 100] a.index ≠ none) ∧
        r.anomaly_rate =
          (r.anomalies.length : ℚ) / (([1, 2, 3, 4, 5, 100] : List ℚ).length : ℚ) :=
  ⟨by decide,
    detect_anomalies_nan_handling (fun q => q) [1, 2, 3, 4, 5, 100] 2 (by decide)⟩

/-! ### Claim C1: period auto-selection in `decompose_time_series` -/

/-- A 24-point series with a strong non-monthly structure:
`x i = i mod 7`, written out. -/
def c1Series : List ℚ :=
  [0, 1, 2, 3, 4, 5, 6, 0, 1, 2, 3, 4, 5, 6, 0, 1, 2, 3, 4, 5, 6, 0, 1, 2]

set_option maxHeartbeats 2000000 in
/-- **C1, counterexample.**  The claim states that `decompose_time_series`
with an unspecified period evaluates the candidates 12 and 4 and keeps
the lowest-ratio one.  On `c1Series` that evaluation (the loop of
`detect_seasonality`, lines 92–119) yields no score for 12 and the
score `368/25` for 4, so the described selection returns 4 —
but `decompose_time_series` returns period 12: it never runs the
candidate loop and always defaults to 12. -/
theorem decompose_period_selection_counterexample :
    seasonalityScore c1Series 12 = none ∧
    seasonalityScore c1Series 4 = some (368 / 25) ∧
    detect_seasonality_auto_period c1Series = 4 ∧
    (decompose_time_series c1Series none).toOption.map
      DecompositionResult.period = some 12 := by
  have hr24 : List.range 24 = [0,1,2,3,4,5,6,7,8,9,10,11,12,13,14,15,16,17,18,19,20,21,22,23] := by decide
  have hr3 : List.range 3 = [0,1,2] := by decide
  have hr11 : List.range 11 = [0,1,2,3,4,5,6,7,8,9,10] := by decide
  have hr4 : List.range 4 = [0,1,2,3] := by decide
  have hr12 : List.range 12 = [0,1,2,3,4,5,6,7,8,9,10,11] := by decide
  have hlen : c1Series.length = 24 := rfl
  have hpa4_0 : periodAverage 4 c1Series 0 = (21 / 40) := by
    simp [periodAverage, detrendAt, maTrendAt, sumWindow, c1Series, hr24, hr3,
      List.filterMap_cons, List.getD]
    norm_num
  have hpa4_1 : periodAverage 4 c1Series 1 = (7 / 40) := by
    simp [periodAverage, detrendAt, maTrendAt, sumWindow, c1Series, hr24, hr3,
      List.filterMap_cons, List.getD]
    norm_num
  have hpa4_2 : periodAverage 4 c1Series 2 = 0 := by
    simp [periodAverage, detrendAt, maTrendAt, sumWindow, c1Series, hr24, hr3,
      List.filterMap_cons, List.getD]
    norm_num
  have hpa4_3 : periodAverage 4 c1Series 3 = (-(21 / 40)) := by
    simp [periodAverage, detrendAt, maTrendAt, sumWindow, c1Series, hr24, hr3,
      List.filterMap_cons, List.getD]
    norm_num
  have hs4 : seasonalComponents 4 c1Series = [(77 / 160), (21 / 160), (-(7 / 160)), (-(91 / 160)), (77 / 160), (21 / 160), (-(7 / 160)), (-(91 / 160)), (77 / 160), (21 / 160), (-(7 / 160)), (-(91 / 160)), (77 / 160), (21 / 160), (-(7 / 160)), (-(91 / 160)), (77 / 160), (21 / 160), (-(7 / 160)), (-(91 / 160)), (77 / 160), (21 / 160), (-(7 / 160)), (-(91 / 160))] := by
    simp [seasonalComponents, hlen, hr24, hr4, hpa4_0, hpa4_1, hpa4_2, hpa4_3,
      List.getD_cons_zero, List.getD_cons_succ]
    norm_num
  have hres4 : residDropna 4 c1Series = [(7 / 160), (91 / 160), (-(77 / 160)), (119 / 160), (427 / 160), (-(329 / 160)), (-(217 / 160)), (-(21 / 160)), (7 / 160), (91 / 160), (63 / 160), (399 / 160), (-(413 / 160)), (-(49 / 160)), (-(77 / 160)), (-(21 / 160)), (7 / 160), (231 / 160), (343 / 160), (-(441 / 160))] := by
    simp only [residDropna, hs4]
    simp [detrendAt, maTrendAt, sumWindow, c1Series, hr24, hr3,
      List.filterMap_cons, List.getD_cons_zero, List.getD_cons_succ]
    norm_num
  have hrv4 : npVarQ [(7 / 160), (91 / 160), (-(77 / 160)), (119 / 160), (427 / 160), (-(329 / 160)), (-(217 / 160)), (-(21 / 160)), (7 / 160), (91 / 160), (63 / 160), (399 / 160), (-(413 / 160)), (-(49 / 160)), (-(77 / 160)), (-(21 / 160)), (7 / 160), (231 / 160), (343 / 160), (-(441 / 160))] = (3381 / 1600) := by
    simp [npVarQ, qmean]; norm_num
  have hsv4 : npVarQ [(77 / 160), (21 / 160), (-(7 / 160)), (-(91 / 160)), (77 / 160), (21 / 160), (-(7 / 160)), (-(91 / 160)), (77 / 160), (21 / 160), (-(7 / 160)), (-(91 / 160)), (77 / 160), (21 / 160), (-(7 / 160)), (-(91 / 160)), (77 / 160), (21 / 160), (-(7 / 160)), (-(91 / 160)), (77 / 160), (21 / 160), (-(7 / 160)), (-(91 / 160))] = (147 / 1024) := by
    simp [npVarQ, qmean]; norm_num
  have hpa12_0 : periodAverage 12 c1Series 0 = (7 / 3) := by
    simp [periodAverage, detrendAt, maTrendAt, sumWindow, c1Series, hr24, hr11,
      List.filterMap_cons, List.getD]
    norm_num
  have hpa12_1 : periodAverage 12 c1Series 1 = (77 / 24) := by
    simp [periodAverage, detrendAt, maTrendAt, sumWindow, c1Series, hr24, hr11,
      List.filterMap_cons, List.getD]
    norm_num
  have hpa12_2 : periodAverage 12 c1Series 2 = (-(77 / 24)) := by
    simp [periodAverage, detrendAt, maTrendAt, sumWindow, c1Series, hr24, hr11,
      List.filterMap_cons, List.getD]
    norm_num
  have hpa12_3 : periodAverage 12 c1Series 3 = (-(7 / 3)) := by
    simp [periodAverage, detrendAt, maTrendAt, sumWindow, c1Series, hr24, hr11,
      List.filterMap_cons, List.getD]
    norm_num
  have hpa12_4 : periodAverage 12 c1Series 4 = (-(7 / 6)) := by
    simp [periodAverage, detrendAt, maTrendAt, sumWindow, c1Series, hr24, hr11,
      List.filterMap_cons, List.getD]
    norm_num
  have hpa12_5 : periodAverage 12 c1Series 5 = 0 := by
    simp [periodAverage, detrendAt, maTrendAt, sumWindow, c1Series, hr24, hr11,
      List.filterMap_cons, List.getD]
    norm_num
  have hpa12_6 : periodAverage 12 c1Series 6 = (77 / 24) := by
    simp [periodAverage, detrendAt, maTrendAt, sumWindow, c1Series, hr24, hr11,
      List.filterMap_cons, List.getD]
    norm_num
  have hpa12_7 : periodAverage 12 c1Series 7 = (-(77 / 24)) := by
    simp [periodAverage, detrendAt, maTrendAt, sumWindow, c1Series, hr24, hr11,
      List.filterMap_cons, List.getD]
    norm_num
  have hpa12_8 : periodAverage 12 c1Series 8 = (-(7 / 3)) := by
    simp [periodAverage, detrendAt, maTrendAt, sumWindow, c1Series, hr24, hr11,
      List.filterMap_cons, List.getD]
    norm_num
  have hpa12_9 : periodAverage 12 c1Series 9 = (-(7 / 6)) := by
    simp [periodAverage, detrendAt, maTrendAt, sumWindow, c1Series, hr24, hr11,
      List.filterMap_cons, List.getD]
    norm_num
  have hpa12_10 : periodAverage 12 c1Series 10 = 0 := by
    simp [periodAverage, detrendAt, maTrendAt, sumWindow, c1Series, hr24, hr11,
      List.filterMap_cons, List.getD]
    norm_num
  have hpa12_11 : periodAverage 12 c1Series 11 = (7 / 6) := by
    simp [periodAverage, detrendAt, maTrendAt, sumWindow, c1Series, hr24, hr11,
      List.filterMap_cons, List.getD]
    norm_num
  have hs12 : seasonalComponents 12 c1Series = [(21 / 8), (7 / 2), (-(35 / 12)), (-(49 / 24)), (-(7 / 8)), (7 / 24), (7 / 2), (-(35 / 12)), (-(49 / 24)), (-(7 / 8)), (7 / 24), (35 / 24), (21 / 8), (7 / 2), (-(35 / 12)), (-(49 / 24)), (-(7 / 8)), (7 / 24), (7 / 2), (-(35 / 12)), (-(49 / 24)), (-(7 / 8)), (7 / 24), (35 / 24)] := by
    simp [seasonalComponents, hlen, hr24, hr12, hpa12_0, hpa12_1, hpa12_2, hpa12_3, hpa12_4, hpa12_5, hpa12_6, hpa12_7, hpa12_8, hpa12_9, hpa12_10, hpa12_11,
      List.getD_cons_zero, List.getD_cons_succ]
    norm_num
  have hres12 : residDropna 12 c1Series = [(-(7 / 24)), (-(7 / 24)), (-(7 / 24)), (-(7 / 24)), (-(7 / 24)), (-(7 / 24)), (-(7 / 24)), (-(7 / 24)), (-(7 / 24)), (-(7 / 24)), (-(7 / 24)), (-(7 / 24))] := by
    simp only [residDropna, hs12]
    simp [detrendAt, maTrendAt, sumWindow, c1Series, hr24, hr11,
      List.filterMap_cons, List.getD_cons_zero, List.getD_cons_succ]
    norm_num
  have hrv12 : npVarQ [(-(7 / 24)), (-(7 / 24)), (-(7 / 24)), (-(7 / 24)), (-(7 / 24)), (-(7 / 24)), (-(7 / 24)), (-(7 / 24)), (-(7 / 24)), (-(7 / 24)), (-(7 / 24)), (-(7 / 24))] = 0 := by
    simp [npVarQ, qmean]; norm_num
  have hscore4 : seasonalityScore c1Series 4 = some (368 / 25) := by
    simp only [seasonalityScore]
    rw [if_pos (show 2 * 4 ≤ c1Series.length by decide)]
    rw [hres4, hs4]
    rw [if_pos (by decide)]
    rw [hrv4, hsv4]
    rw [if_pos (by constructor <;> norm_num)]
    norm_num
  have hscore12 : seasonalityScore c1Series 12 = none := by
    simp only [seasonalityScore]
    rw [if_pos (show 2 * 12 ≤ c1Series.length by decide)]
    rw [hres12]
    rw [if_pos (by decide)]
    rw [hrv12]
    rw [if_neg (fun h => lt_irrefl 0 h.1)]
  have hauto : detect_seasonality_auto_period c1Series = 4 := by
    simp only [detect_seasonality_auto_period, List.foldl_cons, List.foldl_nil]
    rw [hscore12, hscore4]
  exact ⟨hscore12, hscore4, hauto, rfl⟩

/-- **C1 (amended).**  For every series of length ≥ 24 passed to
`decompose_time_series` with period unspecified, the function performs
no candidate evaluation and always decomposes with the default period
12; the candidate evaluation over `{12, 4}` described by the claim is
carried out only by `detect_seasonality`
(`detect_seasonality_auto_period`). -/
theorem decompose_time_series_default_period (data : List ℚ)
    (h : 24 ≤ data.length) :
    ∃ r, decompose_time_series data none = Except.ok r ∧ r.period = 12 := by
  unfold decompose_time_series
  rw [if_neg (by omega)]
  rw [show (none : Option ℕ).getD 12 = 12 from rfl]
  rw [if_neg (by omega)]
  exact ⟨_, rfl, rfl⟩

/-- **C1, witness** at a constant series of 24 points. -/
theorem decompose_time_series_default_period_witness :
    24 ≤ (List.replicate 24 (5 : ℚ)).length ∧
      ∃ r, decompose_time_series (List.replicate 24 (5 : ℚ)) none = Except.ok r ∧
        r.period = 12 :=
  ⟨by decide,
    decompose_time_series_default_period (List.replicate 24 (5 : ℚ)) (by decide)⟩

/-! ### Claim C8: monotonically increasing series -/

lemma double_sum_identity (n : ℕ) (f g : ℕ → ℚ) :
    ∑ i ∈ Finset.range n, ∑ j ∈ Finset.range n, (f i - f j) * (g i - g j) =
      2 * ((n : ℚ) * (∑ i ∈ Finset.range n, f i * g i) -
        (∑ i ∈ Finset.range n, f i) * (∑ i ∈ Finset.range n, g i)) := by
  have hinner : ∀ i ∈ Finset.range n,
      ∑ j ∈ Finset.range n, (f i - f j) * (g i - g j) =
        (n : ℚ) * (f i * g i) - f i * (∑ j ∈ Finset.range n, g j)
          - (∑ j ∈ Finset.range n, f j) * g i
          + ∑ j ∈ Finset.range n, f j * g j := by
    intro i _
    have hexp : ∀ j ∈ Finset.range n, (f i - f j) * (g i - g j) =
        f i * g i - f i * g j - f j * g i + f j * g j := by
      intro j _; ring
    rw [Finset.sum_congr rfl hexp, Finset.sum_add_distrib,
      Finset.sum_sub_distrib, Finset.sum_sub_distrib, Finset.sum_const,
      Finset.card_range, ← Finset.mul_sum, ← Finset.sum_mul, nsmul_eq_mul]
  rw [Finset.sum_congr rfl hinner]
  simp only [Finset.sum_add_distrib, Finset.sum_sub_distrib, ← Finset.mul_sum,
    ← Finset.sum_mul, Finset.sum_const, Finset.card_range, nsmul_eq_mul]
  ring

lemma monovary_term_nonneg (n : ℕ) (f g : ℕ → ℚ)
    (hfg : ∀ a b, a < b → b < n → f a < f b ∧ g a < g b)
    (i j : ℕ) (hi : i < n) (hj : j < n) :
    0 ≤ (f i - f j) * (g i - g j) := by
  rcases lt_trichotomy i j with hij | rfl | hji
  · have h := hfg i j hij hj
    exact le_of_lt (mul_pos_of_neg_of_neg (by linarith [h.1]) (by linarith [h.2]))
  · simp
  · have h := hfg j i hji hi
    exact le_of_lt (mul_pos (by linarith [h.1]) (by linarith [h.2]))

lemma monovary_double_sum_pos (n : ℕ) (f g : ℕ → ℚ) (h2 : 2 ≤ n)
    (hfg : ∀ a b, a < b → b < n → f a < f b ∧ g a < g b) :
    0 < ∑ i ∈ Finset.range n, ∑ j ∈ Finset.range n, (f i - f j) * (g i - g j) := by
  apply Finset.sum_pos'
  · intro i hi
    exact Finset.sum_nonneg (fun j hj =>
      monovary_term_nonneg n f g hfg i j (Finset.mem_range.mp hi)
        (Finset.mem_range.mp hj))
  · refine ⟨0, Finset.mem_range.mpr (by omega), Finset.sum_pos' ?_ ?_⟩
    · intro j hj
      exact monovary_term_nonneg n f g hfg 0 j (by omega) (Finset.mem_range.mp hj)
    · refine ⟨1, Finset.mem_range.mpr (by omega), ?_⟩
      have h := hfg 0 1 (by omega) (by omega)
      exact mul_pos_of_neg_of_neg (by linarith [h.1]) (by linarith [h.2])

lemma pairwise_of_adjacent (data : List ℚ)
    (hmono : ∀ i, i < data.length - 1 → data.getD i 0 < data.getD (i + 1) 0) :
    ∀ j i, i < j → j < data.length → data.getD i 0 < data.getD j 0 := by
  intro j
  induction j with
  | zero => intro i hi _; exact absurd hi (Nat.not_lt_zero i)
  | succ k ih =>
    intro i hi hj
    rcases Nat.lt_succ_iff_lt_or_eq.mp hi with hik | rfl
    · exact lt_trans (ih i hik (by omega)) (hmono k (by omega))
    · exact hmono i (by omega)

lemma ols_slope_pos (data : List ℚ) (h2 : 2 ≤ data.length)
    (hmono : ∀ i, i < data.length - 1 → data.getD i 0 < data.getD (i + 1) 0) :
    0 < olsSlope data := by
  have hpair := pairwise_of_adjacent data hmono
  have hfgN : ∀ a b : ℕ, a < b → b < data.length →
      ((fun i => (i : ℚ)) a < (fun i => (i : ℚ)) b) ∧
        ((fun i => data.getD i 0) a < (fun i => data.getD i 0) b) :=
    fun a b hab hbn => ⟨by show (a : ℚ) < (b : ℚ); exact_mod_cast hab, hpair b a hab hbn⟩
  have hN : 0 < (data.length : ℚ) * sumIY data - sumI data.length * sumY data := by
    have hpos := monovary_double_sum_pos data.length (fun i => (i : ℚ))
      (fun i => data.getD i 0) h2 hfgN
    rw [double_sum_identity] at hpos
    simp only [sumIY, sumI, sumY]
    linarith
  have hD : 0 < (data.length : ℚ) * sumII data.length - sumI data.length ^ 2 := by
    have hpos := monovary_double_sum_pos data.length (fun i => (i : ℚ))
      (fun i => (i : ℚ)) h2
      (fun a b hab hbn =>
        ⟨by show (a : ℚ) < (b : ℚ); exact_mod_cast hab,
         by show (a : ℚ) < (b : ℚ); exact_mod_cast hab⟩)
    rw [double_sum_identity] at hpos
    simp only [sumII, sumI, pow_two]
    linarith
  rw [olsSlope]
  exact div_pos hN hD

/-- **C8, counterexample.**  The claim states that every monotonically
increasing series yields `direction = "increasing"`; the strictly
increasing series `[1, 1001/1000]` has slope `1/1000`, and the
`|slope| < 0.01` branch reports `direction = "stable"` instead. -/
theorem analyze_trend_increasing_counterexample :
    (1 : ℚ) < 1001 / 1000 ∧
    (analyze_trend [1, 1001 / 1000]).toOption.map TrendResult.slope =
      some (1 / 1000) ∧
    (analyze_trend [1, 1001 / 1000]).toOption.map TrendResult.direction =
      some "stable" := by
  have hs : olsSlope [1, 1001 / 1000] = 1 / 1000 := by
    simp [olsSlope, sumIY, sumY, sumI, sumII, Finset.sum_range_succ]
    norm_num
  refine ⟨by norm_num, ?_, ?_⟩
  · unfold analyze_trend
    rw [if_neg (by decide), if_neg (by decide)]
    simp [Except.toOption, hs]
  · unfold analyze_trend
    rw [if_neg (by decide), if_neg (by decide)]
    simp only [Except.toOption, Option.map, hs]
    rw [abs_of_pos (by norm_num : (0 : ℚ) < 1 / 1000), if_pos (by norm_num)]

/-- **C8 (amended).**  For every strictly increasing series of length
≥ 2 whose first value is non-zero (a zero first value turns the whole
call into an error dictionary, see C2), `analyze_trend` succeeds with
`slope > 0`, and reports `direction = "increasing"` exactly when
`slope ≥ 0.01`, and `direction = "stable"` when `0 < slope < 0.01`. -/
theorem analyze_trend_increasing (data : List ℚ) (h2 : 2 ≤ data.length)
    (hmono : ∀ i, i < data.length - 1 → data.getD i 0 < data.getD (i + 1) 0)
    (h0 : data.getD 0 0 ≠ 0) :
    ∃ r, analyze_trend data = Except.ok r ∧ 0 < r.slope ∧
      (1 / 100 ≤ r.slope → r.direction = "increasing") ∧
      (r.slope < 1 / 100 → r.direction = "stable") := by
  have hslope := ols_slope_pos data h2 hmono
  unfold analyze_trend
  rw [if_neg (by omega), if_neg h0]
  refine ⟨_, rfl, hslope, fun hge => ?_, fun hlt => ?_⟩
  · show (if |olsSlope data| < 1 / 100 then "stable"
      else if 0 < olsSlope data then "increasing" else "decreasing") = "increasing"
    rw [abs_of_pos hslope, if_neg (not_lt.mpr hge), if_pos hslope]
  · show (if |olsSlope data| < 1 / 100 then "stable"
      else if 0 < olsSlope data then "increasing" else "decreasing") = "stable"
    rw [abs_of_pos hslope, if_pos hlt]

/-- **C8, witness** at the strictly increasing series `[1, 2]`. -/
theorem analyze_trend_increasing_witness :
    2 ≤ ([1, 2] : List ℚ).length ∧
    (∀ i, i < ([1, 2] : List ℚ).length - 1 →
      ([1, 2] : List ℚ).getD i 0 < ([1, 2] : List ℚ).getD (i + 1) 0) ∧
    ([1, 2] : List ℚ).getD 0 0 ≠ 0 ∧
    (∃ r, analyze_trend [1, 2] = Except.ok r ∧ 0 < r.slope ∧
      (1 / 100 ≤ r.slope → r.direction = "increasing") ∧
      (r.slope < 1 / 100 → r.direction = "stable")) :=
  ⟨by decide, by decide, by decide,
    analyze_trend_increasing [1, 2] (by decide) (by decide) (by decide)⟩

/-! ### Claim C6: change-point clustering -/

/-- The chaining relation of the grouping step: the second candidate
lies within 5 index positions after the first. -/
def chained (a b : ChangePoint) : Prop := b.index - a.index < 5

lemma getLast?_cons_eq (c : ChangePoint) (tl : List ChangePoint) :
    (c :: tl).getLast? = some (tl.getLastD c) := by
  induction tl generalizing c with
  | nil => rfl
  | cons d t ih => rw [List.getLast?_cons_cons, ih d, List.getLastD_cons]

lemma maxAbsFrom_mem (c : ChangePoint) (tl : List ChangePoint) :
    maxAbsFrom c tl ∈ c :: tl := by
  induction tl generalizing c with
  | nil => exact List.mem_cons_self _ _
  | cons x xs ih =>
    have hstep : maxAbsFrom c (x :: xs) =
        maxAbsFrom (if |c.cumulative_sum| < |x.cumulative_sum| then x else c) xs := rfl
    rw [hstep]
    rcases List.mem_cons.mp
        (ih (if |c.cumulative_sum| < |x.cumulative_sum| then x else c)) with heq | hmem
    · rw [heq]
      split
      · exact List.mem_cons_of_mem c (List.mem_cons_self x xs)
      · exact List.mem_cons_self c (x :: xs)
    · exact List.mem_cons_of_mem c (List.mem_cons_of_mem x hmem)

lemma maxAbsFrom_maximal (c : ChangePoint) (tl : List ChangePoint) :
    ∀ y ∈ c :: tl,
      |y.cumulative_sum| ≤ |(maxAbsFrom c tl).cumulative_sum| := by
  induction tl generalizing c with
  | nil =>
    intro y hy
    rw [List.mem_singleton.mp hy]
    exact le_refl _
  | cons x xs ih =>
    intro y hy
    have hstep : maxAbsFrom c (x :: xs) =
        maxAbsFrom (if |c.cumulative_sum| < |x.cumulative_sum| then x else c) xs := rfl
    rw [hstep]
    have hchead : |c.cumulative_sum| ≤
        |(if |c.cumulative_sum| < |x.cumulative_sum| then x else c).cumulative_sum| := by
      split
      · next hlt => exact le_of_lt hlt
      · exact le_refl _
    have hxhead : |x.cumulative_sum| ≤
        |(if |c.cumulative_sum| < |x.cumulative_sum| then x else c).cumulative_sum| := by
      split
      · exact le_refl _
      · next hnlt => exact le_of_not_lt hnlt
    have hhead := ih (if |c.cumulative_sum| < |x.cumulative_sum| then x else c)
      (if |c.cumulative_sum| < |x.cumulative_sum| then x else c)
      (List.mem_cons_self _ _)
    rcases List.mem_cons.mp hy with rfl | hy₂
    · exact le_trans hchead hhead
    · rcases List.mem_cons.mp hy₂ with rfl | hy₃
      · exact le_trans hxhead hhead
      · exact ih _ y (List.mem_cons_of_mem _ hy₃)

lemma chainClusters_cons_of_nil (c : ChangePoint) {l : List ChangePoint}
    (h : chainClusters l = []) : chainClusters (c :: l) = [[c]] := by
  rw [chainClusters, h]

lemma chainClusters_cons_of_empty_head (c : ChangePoint)
    {l : List ChangePoint} {gs : List (List ChangePoint)}
    (h : chainClusters l = [] :: gs) : chainClusters (c :: l) = [c] :: gs := by
  rw [chainClusters, h]

lemma chainClusters_cons_of_cons (c : ChangePoint) {l : List ChangePoint}
    {d : ChangePoint} {t : List ChangePoint} {gs : List (List ChangePoint)}
    (h : chainClusters l = (d :: t) :: gs) :
    chainClusters (c :: l) =
      if d.index - c.index < 5 then (c :: d :: t) :: gs
      else [c] :: (d :: t) :: gs := by
  rw [chainClusters, h]

lemma chainClusters_cons_head (c : ChangePoint) (l : List ChangePoint) :
    ∃ t gs, chainClusters (c :: l) = (c :: t) :: gs := by
  rcases hcc : chainClusters l with _ | ⟨g, gs⟩
  · exact ⟨[], [], chainClusters_cons_of_nil c hcc⟩
  · rcases g with _ | ⟨d, t⟩
    · exact ⟨[], gs, chainClusters_cons_of_empty_head c hcc⟩
    · by_cases hd : d.index - c.index < 5
      · exact ⟨d :: t, gs, by rw [chainClusters_cons_of_cons c hcc, if_pos hd]⟩
      · exact ⟨[], (d :: t) :: gs, by
          rw [chainClusters_cons_of_cons c hcc, if_neg hd]⟩

lemma chainClusters_of_chain (c : ChangePoint) (tl : List ChangePoint)
    (h : List.Chain' chained (c :: tl)) :
    chainClusters (c :: tl) = [c :: tl] := by
  induction tl generalizing c with
  | nil => rfl
  | cons d t ih =>
    have hcd : d.index - c.index < 5 := (List.chain'_cons.mp h).1
    have htail := (List.chain'_cons.mp h).2
    rw [chainClusters_cons_of_cons c (ih d htail), if_pos hcd]

lemma chainClusters_split (c : ChangePoint) (tl : List ChangePoint)
    (cp : ChangePoint) (rest : List ChangePoint)
    (hch : List.Chain' chained (c :: tl))
    (hgap : ¬ chained (tl.getLastD c) cp) :
    chainClusters ((c :: tl) ++ cp :: rest) =
      (c :: tl) :: chainClusters (cp :: rest) := by
  induction tl generalizing c with
  | nil =>
    obtain ⟨t, gs, hcc⟩ := chainClusters_cons_head cp rest
    have hgap₁ : ¬ cp.index - c.index < 5 := hgap
    rw [List.cons_append, List.nil_append,
      chainClusters_cons_of_cons c hcc, if_neg hgap₁, ← hcc]
  | cons d t ih =>
    have hcd : d.index - c.index < 5 := (List.chain'_cons.mp hch).1
    have htail := (List.chain'_cons.mp hch).2
    have hgap₂ : ¬ chained (t.getLastD d) cp := by
      rw [List.getLastD_cons] at hgap; exact hgap
    have hrec := ih d htail hgap₂
    rw [List.cons_append] at hrec
    rw [List.cons_append, List.cons_append,
      chainClusters_cons_of_cons c hrec, if_pos hcd]

lemma groupGo_eq_clusterReps (l : List ChangePoint) :
    ∀ c tl, List.Chain' chained (c :: tl) →
      groupGo c tl l = clusterReps ((c :: tl) ++ l) := by
  induction l with
  | nil =>
    intro c tl hch
    rw [groupGo, List.append_nil, clusterReps, chainClusters_of_chain c tl hch]
    rfl
  | cons cp rest ih =>
    intro c tl hch
    rw [groupGo]
    by_cases hgap : cp.index - (tl.getLastD c).index < 5
    · rw [if_pos hgap]
      have hch₂ : List.Chain' chained (c :: (tl ++ [cp])) := by
        rw [← List.cons_append, List.chain'_append]
        refine ⟨hch, List.chain'_singleton cp, ?_⟩
        intro x hx y hy
        rw [getLast?_cons_eq, Option.mem_def, Option.some.injEq] at hx
        simp only [List.head?_cons, Option.mem_def, Option.some.injEq] at hy
        rw [← hx, ← hy]
        exact hgap
      rw [ih c (tl ++ [cp]) hch₂]
      have hassoc : (c :: (tl ++ [cp])) ++ rest = (c :: tl) ++ cp :: rest := by
        simp
      rw [hassoc]
    · rw [if_neg hgap]
      rw [clusterReps, chainClusters_split c tl cp rest hch hgap,
        List.flatMap_cons]
      have hrec := ih cp [] (List.chain'_singleton cp)
      simp only [List.cons_append, List.nil_append] at hrec
      rw [hrec, clusterReps]
      rfl

lemma groupChangePoints_eq_clusterReps (l : List ChangePoint) :
    groupChangePoints l = clusterReps l := by
  cases l with
  | nil => rfl
  | cons c rest =>
    rw [groupChangePoints,
      groupGo_eq_clusterReps rest c [] (List.chain'_singleton c)]
    rfl

lemma chainClusters_flatten (l : List ChangePoint) :
    (chainClusters l).flatten = l := by
  induction l with
  | nil => rfl
  | cons c rest ih =>
    rcases hcc : chainClusters rest with _ | ⟨g, gs⟩
    · rw [hcc] at ih
      simp only [List.flatten_nil] at ih
      rw [chainClusters_cons_of_nil c hcc]
      simp [← ih]
    · rcases g with _ | ⟨d, t⟩
      · rw [hcc] at ih
        simp only [List.flatten_cons, List.nil_append] at ih
        rw [chainClusters_cons_of_empty_head c hcc, List.flatten_cons, ih]
        rfl
      · rw [hcc] at ih
        simp only [List.flatten_cons] at ih
        rw [chainClusters_cons_of_cons c hcc]
        split
        · rw [List.flatten_cons, ← ih]
          rfl
        · rw [List.flatten_cons, List.flatten_cons, ← ih]
          rfl

lemma pickRep_sublist (g : List ChangePoint) : (pickRep g).Sublist g := by
  cases g with
  | nil => exact List.Sublist.refl []
  | cons c tl => exact List.singleton_sublist.mpr (maxAbsFrom_mem c tl)

lemma flatMap_pickRep_sublist (gs : List (List ChangePoint)) :
    (gs.flatMap pickRep).Sublist gs.flatten := by
  induction gs with
  | nil => exact List.Sublist.refl []
  | cons g rest ih =>
    rw [List.flatMap_cons, List.flatten_cons]
    exact List.Sublist.append (pickRep_sublist g) ih

lemma clusterReps_sublist (l : List ChangePoint) :
    (clusterReps l).Sublist l := by
  rw [clusterReps]
  have h := flatMap_pickRep_sublist (chainClusters l)
  rwa [chainClusters_flatten] at h

lemma filterMap_if_eq_filter {p : ℕ → Prop} [DecidablePred p] (l : List ℕ) :
    l.filterMap (fun i => if p i then some i else none) =
      l.filter (fun i => decide (p i)) := by
  induction l with
  | nil => rfl
  | cons a t ih =>
    by_cases hp : p a
    · rw [List.filterMap_cons, if_pos hp, List.filter_cons,
        if_pos (by simpa using hp), ih]
    · rw [List.filterMap_cons, if_neg hp, List.filter_cons,
        if_neg (by simpa using hp), ih]

lemma rawCandidates_indices_sorted (sq : ℚ → ℚ) (data : List ℚ)
    (threshold : ℚ) :
    List.Pairwise (fun a b => a < b)
      ((rawCandidates sq data threshold).map (fun cp => cp.index)) := by
  rw [rawCandidates, List.map_filterMap]
  have hfun : ∀ i ∈ (List.range data.length).drop 1,
      Option.map (fun cp => ChangePoint.index cp)
        (if threshold * sq (npVarQ (data.map (fun v => v - qmean data))) <
            |(cumsum (data.map (fun v => v - qmean data))).getD i 0| then
          some ⟨i, data.getD i 0,
            (cumsum (data.map (fun v => v - qmean data))).getD i 0⟩
        else none) =
      if threshold * sq (npVarQ (data.map (fun v => v - qmean data))) <
          |(cumsum (data.map (fun v => v - qmean data))).getD i 0| then
        some i
      else none := by
    intro i _
    split <;> rfl
  rw [List.filterMap_congr hfun, filterMap_if_eq_filter]
  refine List.Pairwise.sublist ?_ (List.pairwise_lt_range data.length)
  exact List.Sublist.trans (List.filter_sublist _) (List.drop_sublist 1 _)

/-- **C6.**  For every series of length ≥ 5, every threshold and every
square-root model, `detect_change_points` succeeds; its
`cumulative_sum` output is the full cumulative-deviation sequence of
the series (same length as the input); its `change_points` list is
exactly one representative per chained cluster of raw candidates
(clusters = maximal runs with index gaps < 5), each representative
belonging to its cluster and carrying the maximal absolute cumulative
sum within it; and the representatives are emitted in strictly
increasing index order. -/
theorem detect_change_points_grouping (sq : ℚ → ℚ) (data : List ℚ)
    (threshold : ℚ) (h : 5 ≤ data.length) :
    ∃ r, detect_change_points sq data threshold = Except.ok r ∧
      r.cumulative_sum = cumsum (data.map (fun v => v - qmean data)) ∧
      r.cumulative_sum.length = data.length ∧
      r.change_points = clusterReps (rawCandidates sq data threshold) ∧
      (∀ g ∈ chainClusters (rawCandidates sq data threshold),
        ∀ rep ∈ pickRep g, rep ∈ g ∧
          ∀ x ∈ g, |x.cumulative_sum| ≤ |rep.cumulative_sum|) ∧
      List.Pairwise (fun a b => a < b)
        (r.change_points.map (fun cp => cp.index)) := by
  unfold detect_change_points
  rw [if_neg (by omega)]
  refine ⟨_, rfl, rfl, ?_, ?_, ?_, ?_⟩
  · rw [cumsum, List.length_map, List.length_range, List.length_map]
  · exact groupChangePoints_eq_clusterReps _
  · intro g hg rep hrep
    cases g with
    | nil => exact absurd hrep (List.not_mem_nil rep)
    | cons c tl =>
      rw [List.mem_singleton.mp hrep]
      exact ⟨maxAbsFrom_mem c tl, maxAbsFrom_maximal c tl⟩
  · rw [groupChangePoints_eq_clusterReps]
    exact List.Pairwise.sublist
      (List.Sublist.map (fun cp => cp.index)
        (clusterReps_sublist (rawCandidates sq data threshold)))
      (rawCandidates_indices_sorted sq data threshold)

/-- **C6, witness** at a 5-point series with a step at the end. -/
theorem detect_change_points_grouping_witness :
    5 ≤ ([0, 0, 0, 0, 10] : List ℚ).length ∧
    (∃ r, detect_change_points (fun q => q) [0, 0, 0, 0, 10] 1 = Except.ok r ∧
      r.cumulative_sum =
        cumsum (([0, 0, 0, 0, 10] : List ℚ).map
          (fun v => v - qmean [0, 0, 0, 0, 10])) ∧
      r.cumulative_sum.length = ([0, 0, 0, 0, 10] : List ℚ).length ∧
      r.change_points = clusterReps (rawCandidates (fun q => q) [0, 0, 0, 0, 10] 1) ∧
      (∀ g ∈ chainClusters (rawCandidates (fun q => q) [0, 0, 0, 0, 10] 1),
        ∀ rep ∈ pickRep g, rep ∈ g ∧
          ∀ x ∈ g, |x.cumulative_sum| ≤ |rep.cumulative_sum|) ∧
      List.Pairwise (fun a b => a < b)
        (r.change_points.map (fun cp => cp.index))) :=
  ⟨by decide,
    detect_change_points_grouping (fun q => q) [0, 0, 0, 0, 10] 1 (by decide)⟩

end TimeSeriesAnalyzer

